import Mathlib

/-!
Verification development for the PPG heart-rate estimation core
(`autoheartwatch.py`): a shallow embedding of the signal pipeline
(offset removal, two biquad filters, peak-tracking AGC, signed-byte
sample buffer) and of the trough-scan heart-rate estimator, together
with theorems about the specified behaviour.

Modelling conventions:
* Python floats are modelled as exact rationals (`ℚ`); the decimal
  coefficient literals of the source are taken exactly.
* The `array("b")` sample buffer is modelled as a `List Nat` of raw
  byte values (each `< 256` for values produced by the program);
  `toSigned` is the signed reinterpretation performed by the viper
  `ptr8` reads in `_compare`.
* The source runs under MicroPython (wasp-os).  The one operation that
  can raise is the AGC booster division `100 * spl / (2 * peak)` with a
  zero peak (`ZeroDivisionError`); it is modelled with `Except`.
  `array("b").append` performs no overflow check under MicroPython: an
  out-of-range value is silently truncated to its low byte, so the
  append never raises and is modelled as appending `value mod 256`.
* The debug trace is disabled (`self.debug = None`), as in a freshly
  constructed session; the debug/file side channel is out of scope.
-/

/-- Error outcome of the source that surfaces as a Python exception:
`divByZero` is the `ZeroDivisionError` of the AGC booster division
when the updated peak is zero. -/
inductive PpgError where
  | divByZero
deriving DecidableEq, Repr

/-- Signed reinterpretation of a raw byte, as done on each `ptr8` read
in `_compare`: values above 127 are shifted down by 256. -/
def toSigned (b : Nat) : Int := if 127 < b then (b : Int) - 256 else (b : Int)

/-- Embedding of `_compare(d1, d2, count, shift)`: sum of squared
differences of the signed reinterpretations of the first `count` bytes
of the two buffers.  The `shift` argument is unused, exactly as in the
source.  A non-positive `count` gives an empty loop (`range(count)` in
Python), hence 0. -/
def _compare (d1 d2 : List Nat) (count : Int) (shift : Int) : Int :=
  (List.range count.toNat).foldl
    (fun e i =>
      e + (toSigned (d1.getD i 0) - toSigned (d2.getD i 0)) *
          (toSigned (d1.getD i 0) - toSigned (d2.getD i 0))) 0

/-- Embedding of the nested `compare'(d, shift)` of `_get_heart_rate`:
`_compare(d[shift:], d[:-shift], len(d) - shift, shift)`.  For
`1 ≤ shift`, `d[shift:]` is `d.drop shift` and `d[:-shift]` is
`d.take (d.length - shift)`; the count is the (possibly negative)
integer `len(d) - shift`. -/
def compare' (d : List Nat) (shift : Nat) : Int :=
  _compare (d.drop shift) (d.take (d.length - shift))
    ((d.length : Int) - (shift : Int)) (shift : Int)

/-- The loop of the nested `trough(d, mn, mx)`: `fuel` is the number of
remaining iterations (`mx + 1 - mn` at entry), `i` the current shift,
`z2`/`z1` the dissimilarities at `i - 2` and `i - 1`.  Returning `none`
models the `-1` sentinel of the source. -/
def troughLoop (d : List Nat) : Nat → Nat → Int → Int → Option Nat
  | 0, _, _, _ => none
  | fuel + 1, i, z2, z1 =>
    if z2 > z1 ∧ z1 < compare' d i then some i
    else troughLoop d fuel (i + 1) z1 (compare' d i)

/-- Embedding of the nested `trough(d, mn, mx)` of `_get_heart_rate`:
seeds `z2`/`z1` with the dissimilarities at `mn - 2` and `mn - 1` and
walks `i` from `mn` to `mx` inclusive. -/
def trough (d : List Nat) (mn mx : Nat) : Option Nat :=
  troughLoop d (mx + 1 - mn) mn (compare' d (mn - 2)) (compare' d (mn - 1))

/-- Embedding of `PPG._get_heart_rate`: the four trough-search stages
and the final beats-per-minute conversion.  `none` models Python
`None`. -/
def _get_heart_rate (data : List Nat) : Option Nat :=
  match trough data 7 48 with
  | none => none
  | some t0 =>
    match trough data (t0 * 2 - 5) (t0 * 2 + 5) with
    | none => none
    | some t1 =>
      match trough data (t1 * 3 / 2 - 5) (t1 * 3 / 2 + 4) with
      | none => none
      | some t2 =>
        match trough data (t2 * 4 / 3 - 4) (t2 * 4 / 3 + 4) with
        | none => some (60 * 24 * 3 / t2)
        | some t3 => some (60 * 24 * 4 / t3)

/-- Direct Form II biquad filter state: five coefficients (immutable in
the source) and the two delay registers. -/
structure Biquad where
  b0 : ℚ
  b1 : ℚ
  b2 : ℚ
  a1 : ℚ
  a2 : ℚ
  v1 : ℚ
  v2 : ℚ
deriving DecidableEq, Repr

/-- Embedding of `Biquad.step`: computes the new intermediate value and
the output, then shifts the delay registers. -/
def Biquad.step (f : Biquad) (x : ℚ) : Biquad × ℚ :=
  let v := x - f.a1 * f.v1 - f.a2 * f.v2
  let y := f.b0 * v + f.b1 * f.v1 + f.b2 * f.v2
  ({ f with v1 := v, v2 := f.v1 }, y)

/-- Peak-tracking AGC state. -/
structure PTAGC where
  peak : ℚ
  decay : ℚ
  boost : ℚ
  threshold : ℚ
deriving DecidableEq, Repr

/-- Embedding of `PTAGC.__init__(start, decay, threshold)`: the boost
coefficient is the reciprocal of the decay. -/
def PTAGC.init (start decay threshold : ℚ) : PTAGC :=
  { peak := start, decay := decay, boost := 1 / decay, threshold := threshold }

/-- The peak update performed first by `PTAGC.step`: fast attack by
`boost` when the sample magnitude exceeds the peak, slow release by
`decay` otherwise. -/
def PTAGC.peakUpdate (a : PTAGC) (spl : ℚ) : ℚ :=
  if |spl| > a.peak then a.peak * a.boost else a.peak * a.decay

/-- Embedding of `PTAGC.step`: update the peak, clip samples outside
`peak * threshold`, otherwise rescale by `100 / (2 * peak)`.  The
division raises `ZeroDivisionError` in Python when the updated peak is
zero, modelled by the `divByZero` error. -/
def PTAGC.step (a : PTAGC) (spl : ℚ) : Except PpgError (PTAGC × ℚ) :=
  let peak := a.peakUpdate spl
  if spl > peak * a.threshold ∨ spl < peak * (-a.threshold) then
    .ok ({ a with peak := peak }, 0)
  else if 2 * peak = 0 then .error .divByZero
  else .ok ({ a with peak := peak }, 100 * spl / (2 * peak))

/-- The value returned by a non-raising `PTAGC.step`, as a total
function (using the `ℚ` convention `q / 0 = 0` in the one case where
the source would instead raise). -/
def PTAGC.outVal (a : PTAGC) (spl : ℚ) : ℚ :=
  let peak := a.peakUpdate spl
  if spl > peak * a.threshold ∨ spl < peak * (-a.threshold) then 0
  else 100 * spl / (2 * peak)

/-- Truncation toward zero, the behaviour of Python `int()` on a
number. -/
def intTrunc (q : ℚ) : Int := if 0 ≤ q then q.floor else -((-q).floor)

/-- The raw byte stored by `array("b").append`: MicroPython performs no
overflow check and silently truncates the value to its low byte
(`value mod 256`). -/
def byteOfInt (v : Int) : Nat := (v % 256).toNat

/-- The whole session state of class `PPG`: baseline offset, sample
buffer (raw bytes), high-pass filter, AGC and low-pass filter. -/
structure PPG where
  offset : ℚ
  data : List Nat
  hpf : Biquad
  agc : PTAGC
  lpf : Biquad
deriving DecidableEq, Repr

/-- Embedding of `PPG.__init__(spl)` with the coefficient constants of
the source. -/
def PPG.init (spl : ℚ) : PPG :=
  { offset := spl
    data := []
    hpf := { b0 := 0.87033078, b1 := -1.74066156, b2 := 0.87033078
             a1 := -1.72377617, a2 := 0.75754694, v1 := 0, v2 := 0 }
    agc := PTAGC.init 20 0.971 2
    lpf := { b0 := 0.11595249, b1 := 0.23190498, b2 := 0.11595249
             a1 := -0.72168143, a2 := 0.18549138, v1 := 0, v2 := 0 } }

/-- Embedding of `PPG.preprocess(spl)`: subtract the offset, run the
high-pass filter, the AGC and the low-pass filter, truncate to an
integer, append its low byte to the buffer (MicroPython `array("b")`
silently truncates out-of-range values) and return the integer.  The
one Python exception site — the AGC division — surfaces as an `Except`
error. -/
def PPG.preprocess (p : PPG) (x : ℚ) : Except PpgError (PPG × Int) :=
  let r1 := p.hpf.step (x - p.offset)
  match p.agc.step r1.2 with
  | .error e => .error e
  | .ok ag =>
    let r2 := p.lpf.step ag.2
    let q := intTrunc r2.2
    .ok ({ p with hpf := r1.1, agc := ag.1, lpf := r2.1,
                  data := p.data ++ [byteOfInt q] }, q)

/-- The quantized value a non-raising `PPG.preprocess` appends and
returns, as a total function of the pre-call state and the input. -/
def PPG.quantVal (p : PPG) (x : ℚ) : Int :=
  intTrunc (p.lpf.step (p.agc.outVal ((p.hpf.step (x - p.offset)).2))).2

/-- Embedding of `PPG.get_heart_rate` (debug disabled): below 200
samples return `None` and keep the state; otherwise run the estimator
and clear the buffer. -/
def PPG.get_heart_rate (p : PPG) : PPG × Option Nat :=
  if p.data.length < 200 then (p, none)
  else ({ p with data := [] }, _get_heart_rate p.data)

/-- A strict local minimum of an integer-valued curve at position `m`
(used to state the trough-detector claims). -/
def strictLocalMin (f : Nat → Int) (m : Nat) : Prop :=
  f m < f (m - 1) ∧ f m < f (m + 1)

instance (f : Nat → Int) (m : Nat) : Decidable (strictLocalMin f m) := by
  unfold strictLocalMin; infer_instance

/-- The detection condition of the trough loop at shift `i`: the
dissimilarities at `i - 2`, `i - 1`, `i` form a strict trough. -/
def detAt (d : List Nat) (i : Nat) : Prop :=
  compare' d (i - 2) > compare' d (i - 1) ∧ compare' d (i - 1) < compare' d i

instance (d : List Nat) (i : Nat) : Decidable (detAt d i) := by
  unfold detAt; infer_instance

/-- Concrete periodic buffer (period 7, three periods, bytes 216 and
196 encode −40 and −60) used for the trough-detector claims. -/
def dC3 : List Nat :=
  [0, 40, 60, 40, 0, 216, 196, 0, 40, 60, 40, 0, 216, 196,
   0, 40, 60, 40, 0, 216, 196]

/-- The session used to instantiate the buffer-clearing claims: a fresh
session whose buffer holds 200 zero bytes. -/
def pW : PPG := { PPG.init 0 with data := List.replicate 200 0 }

/-- A degenerate session with its AGC peak already at 0 (the source
does not bound the peak away from 0 under decay). -/
def pC6 : PPG := { PPG.init 0 with agc := PTAGC.init 0 0.971 2 }

/-- A degenerate session (baseline offset 5) whose AGC peak has
decayed to 0. -/
def pC7 : PPG := { PPG.init 5 with agc := PTAGC.init 0 0.971 2 }

/-- The state after a fresh session preprocesses one zero sample: one
zero byte buffered, peak decayed once, filters at rest. -/
def stW : PPG :=
  { PPG.init 0 with
      data := [byteOfInt 0]
      agc := { (PPG.init 0).agc with
                peak := (PPG.init 0).agc.peakUpdate 0 } }

/-- Folding addition over `List.range` is a `Finset.range` sum. -/
theorem foldl_add_range (g : Nat → Int) (n : Nat) :
    (List.range n).foldl (fun e i => e + g i) 0 = ∑ i in Finset.range n, g i := by
  induction n with
  | zero => simp
  | succ n ih =>
    rw [List.range_succ, List.foldl_append, ih, Finset.sum_range_succ]
    rfl

/-- Evaluation of `compare'` as a direct sum over the overlapping
indices. -/
theorem compare'_eq_sum (d : List Nat) (shift : Nat) (h2 : shift ≤ d.length) :
    compare' d shift =
      ∑ i in Finset.range (d.length - shift),
        (toSigned (d.getD (i + shift) 0) - toSigned (d.getD i 0)) *
        (toSigned (d.getD (i + shift) 0) - toSigned (d.getD i 0)) := by
  unfold compare' _compare
  rw [foldl_add_range
    (fun i => (toSigned ((d.drop shift).getD i 0) -
                 toSigned ((d.take (d.length - shift)).getD i 0)) *
              (toSigned ((d.drop shift).getD i 0) -
                 toSigned ((d.take (d.length - shift)).getD i 0)))]
  have hcount : ((d.length : Int) - (shift : Int)).toNat = d.length - shift := by
    omega
  rw [hcount]
  refine Finset.sum_congr rfl fun i hi => ?_
  have hi' : i < d.length - shift := Finset.mem_range.mp hi
  have hdrop : (d.drop shift).getD i 0 = d.getD (i + shift) 0 := by
    rw [List.getD_eq_getElem?_getD, List.getD_eq_getElem?_getD,
      List.getElem?_drop, Nat.add_comm shift i]
  have htake : (d.take (d.length - shift)).getD i 0 = d.getD i 0 := by
    rw [List.getD_eq_getElem?_getD, List.getD_eq_getElem?_getD,
      List.getElem?_take, if_pos hi']
  rw [hdrop, htake]

/-- Claim C4: for every buffer and every `shift` in `[1, len(buffer)-1]`,
`dissimilarity(buffer, shift)` equals the sum over `i` from `0` to
`len(buffer)-shift-1` of `(buffer[i+shift] - buffer[i])^2`, with stored
byte values above 127 reinterpreted as `byte - 256`; the result is a
non-negative integer. -/
theorem c4_dissimilarity_formula (d : List Nat) (shift : Nat)
    (h1 : 1 ≤ shift) (h2 : shift ≤ d.length - 1) :
    compare' d shift =
      (∑ i in Finset.range (d.length - shift),
        (toSigned (d.getD (i + shift) 0) - toSigned (d.getD i 0)) ^ 2) ∧
    0 ≤ compare' d shift := by
  have hlen : shift ≤ d.length := by omega
  have hsum := compare'_eq_sum d shift hlen
  constructor
  · rw [hsum]
    refine Finset.sum_congr rfl fun i _ => ?_
    rw [pow_two]
  · rw [hsum]
    exact Finset.sum_nonneg fun i _ => mul_self_nonneg _

/-- Concrete instance of `c4_dissimilarity_formula` at the buffer
`[1, 130, 2]` (130 stores the signed value −126) and shift 1. -/
theorem c4_dissimilarity_formula_witness :
    ((1 : Nat) ≤ 1 ∧ (1 : Nat) ≤ [1, 130, 2].length - 1) ∧
    (compare' [1, 130, 2] 1 =
      (∑ i in Finset.range ([1, 130, 2].length - 1),
        (toSigned ([1, 130, 2].getD (i + 1) 0) -
          toSigned ([1, 130, 2].getD i 0)) ^ 2) ∧
    0 ≤ compare' [1, 130, 2] 1) :=
  ⟨⟨by decide, by decide⟩,
    c4_dissimilarity_formula [1, 130, 2] 1 (by decide) (by decide)⟩

/-- Claim C9: for every buffer and every shift at or past the buffer
length the dissimilarity is 0 (the overlap is empty) rather than an
error; in particular all shifts of the widest possible fourth-stage
scan window (upper end `(4*155)/3 + 4 = 210`) that lie beyond a
200-sample buffer score as perfectly self-similar. -/
theorem c9_out_of_range_zero :
    (∀ (d : List Nat) (shift : Nat), d.length ≤ shift → compare' d shift = 0) ∧
    (155 * 4 / 3 + 4 = 210 ∧
      ∀ d : List Nat, d.length = 200 →
        ∀ s, 201 ≤ s → s ≤ 210 → compare' d s = 0) := by
  have hmain : ∀ (d : List Nat) (shift : Nat), d.length ≤ shift →
      compare' d shift = 0 := by
    intro d shift h
    unfold compare' _compare
    have hz : ((d.length : Int) - (shift : Int)).toNat = 0 := by omega
    rw [hz]
    rfl
  exact ⟨hmain, by decide, fun d hd s hs1 _ => hmain d s (by omega)⟩

/-- Concrete instance of `c9_out_of_range_zero`: a shift one past the
end of a three-sample buffer scores 0. -/
theorem c9_out_of_range_zero_witness :
    [5, 6, 7].length ≤ 4 ∧ compare' [5, 6, 7] 4 = 0 :=
  ⟨by decide, c9_out_of_range_zero.1 [5, 6, 7] 4 (by decide)⟩

/-- The trough loop scans without detecting: if no shift in the
remaining range satisfies the detection condition, the loop reports
`none` (the `-1` of the source). -/
theorem troughLoop_eq_none (d : List Nat) :
    ∀ (fuel i : Nat), 2 ≤ i →
      (∀ j, i ≤ j → j < i + fuel → ¬ detAt d j) →
      troughLoop d fuel i (compare' d (i - 2)) (compare' d (i - 1)) = none := by
  intro fuel
  induction fuel with
  | zero => intro i _ _; rfl
  | succ n ih =>
    intro i h2 h
    have hni : ¬ (compare' d (i - 2) > compare' d (i - 1) ∧
        compare' d (i - 1) < compare' d i) := h i le_rfl (by omega)
    have e1 : i + 1 - 2 = i - 1 := by omega
    have e2 : i + 1 - 1 = i := by omega
    have := ih (i + 1) (by omega) (fun j hj1 hj2 => h j (by omega) (by omega))
    rw [e1, e2] at this
    simpa [troughLoop, hni] using this

/-- The trough loop returns the first detected shift: if `j` satisfies
the detection condition and no earlier shift in the range does, the
loop returns `j`. -/
theorem troughLoop_eq_some (d : List Nat) :
    ∀ (fuel i j : Nat), 2 ≤ i → i ≤ j → j < i + fuel → detAt d j →
      (∀ l, i ≤ l → l < j → ¬ detAt d l) →
      troughLoop d fuel i (compare' d (i - 2)) (compare' d (i - 1)) = some j := by
  intro fuel
  induction fuel with
  | zero => intro i j _ hij hj _ _; omega
  | succ n ih =>
    intro i j h2 hij hj hdet hmin
    by_cases hji : i = j
    · subst hji
      have : compare' d (i - 2) > compare' d (i - 1) ∧
          compare' d (i - 1) < compare' d i := hdet
      simp [troughLoop, this]
    · have hni : ¬ (compare' d (i - 2) > compare' d (i - 1) ∧
          compare' d (i - 1) < compare' d i) := hmin i le_rfl (by omega)
      have e1 : i + 1 - 2 = i - 1 := by omega
      have e2 : i + 1 - 1 = i := by omega
      have := ih (i + 1) j (by omega) (by omega) (by omega) hdet
        (fun l hl1 hl2 => hmin l (by omega) hl2)
      rw [e1, e2] at this
      simpa [troughLoop, hni] using this

/-- Detection at shift `j` is a strict local minimum of the
dissimilarity curve at position `j - 1`. -/
theorem detAt_iff_strictLocalMin (d : List Nat) (j : Nat) (h : 2 ≤ j) :
    detAt d j ↔ strictLocalMin (compare' d) (j - 1) := by
  unfold detAt strictLocalMin
  have e1 : j - 1 - 1 = j - 2 := by omega
  have e2 : j - 1 + 1 = j := by omega
  rw [e1, e2]

/-- Claim C3 (amended): the trough scan of `find_trough(d, mn, mx)`
evaluates the dissimilarity at shifts `mn-2 .. mx`, so the strict local
minima it can report lie at positions `mn-1 .. mx-1`; when the curve
has a unique strict local minimum at such a position `m`, `find_trough`
returns `m + 1` (the shift at which the trough at `m` is observed), not
`m`; when the curve has no strict local minimum at any such position —
in particular when it is strictly monotonic over the scanned range —
it returns "not found", never an approximate or boundary shift.
(`3 ≤ mn` keeps every scanned shift in the domain the source actually
reads.) -/
theorem c3_trough_detection (d : List Nat) (mn mx : Nat) (h3 : 3 ≤ mn) :
    (∀ m, mn - 1 ≤ m → m + 1 ≤ mx → strictLocalMin (compare' d) m →
      (∀ k, mn - 1 ≤ k → k + 1 ≤ mx → strictLocalMin (compare' d) k → k = m) →
      trough d mn mx = some (m + 1)) ∧
    ((∀ k, mn - 1 ≤ k → k + 1 ≤ mx → ¬ strictLocalMin (compare' d) k) →
      trough d mn mx = none) := by
  constructor
  · intro m hm1 hm2 hmin huniq
    unfold trough
    have hdet : detAt d (m + 1) := by
      rw [detAt_iff_strictLocalMin d (m + 1) (by omega)]
      simpa using hmin
    have hfirst : ∀ l, mn ≤ l → l < m + 1 → ¬ detAt d l := by
      intro l hl1 hl2 hdetl
      have hdet' : strictLocalMin (compare' d) (l - 1) :=
        (detAt_iff_strictLocalMin d l (by omega)).mp hdetl
      have := huniq (l - 1) (by omega) (by omega) hdet'
      omega
    exact troughLoop_eq_some d (mx + 1 - mn) mn (m + 1) (by omega) (by omega)
      (by omega) hdet hfirst
  · intro hnone
    unfold trough
    apply troughLoop_eq_none d (mx + 1 - mn) mn (by omega)
    intro j hj1 hj2 hdet
    exact hnone (j - 1) (by omega) (by omega)
      ((detAt_iff_strictLocalMin d j (by omega)).mp hdet)

/-- Counterexample to claim C3 as stated: on the periodic buffer `dC3`
the scanned dissimilarity curve of `find_trough(dC3, 7, 8)` (shifts
5..8, values 69200 > 22800 > 0 < 15600) has its unique strict local
minimum at position 7, with `7 ≤ 7 ≤ 8`, yet `find_trough` returns 8,
not 7. -/
theorem c3_claim_counterexample :
    strictLocalMin (compare' dC3) 7 ∧
    (¬ strictLocalMin (compare' dC3) 6) ∧
    trough dC3 7 8 = some 8 ∧ (8 : Nat) ≠ 7 := by
  refine ⟨by decide, by decide, by decide, by decide⟩

/-- Concrete instance of `c3_trough_detection`: on `dC3` the unique
strict local minimum of the scanned curve is at position 7 and the
scan over `[7, 8]` reports shift 8. -/
theorem c3_trough_detection_witness :
    ((3 : Nat) ≤ 7 ∧ strictLocalMin (compare' dC3) 7) ∧
    trough dC3 7 8 = some 8 := by
  refine ⟨⟨by decide, by decide⟩, ?_⟩
  refine (c3_trough_detection dC3 7 8 (by decide)).1 7 (by decide) (by decide)
    (by decide) ?_
  intro k hk1 hk2 hmin
  have h6 : 6 ≤ k := by omega
  have h7 : k ≤ 7 := by omega
  interval_cases k
  · exfalso; revert hmin; decide
  · rfl

/-- The dissimilarity of an all-zero buffer is 0 at every shift. -/
theorem compare'_replicate_zero (n s : Nat) :
    compare' (List.replicate n 0) s = 0 := by
  unfold compare' _compare
  rw [foldl_add_range
    (fun i => (toSigned (((List.replicate n 0).drop s).getD i 0) -
                 toSigned (((List.replicate n 0).take
                   ((List.replicate n 0).length - s)).getD i 0)) *
              (toSigned (((List.replicate n 0).drop s).getD i 0) -
                 toSigned (((List.replicate n 0).take
                   ((List.replicate n 0).length - s)).getD i 0)))]
  refine Finset.sum_eq_zero fun i _ => ?_
  have h1 : ((List.replicate n 0).drop s).getD i 0 = 0 := by
    rw [List.getD_eq_getElem?_getD, List.getElem?_drop, List.getElem?_replicate]
    split <;> rfl
  have h2 : ((List.replicate n 0).take
      ((List.replicate n 0).length - s)).getD i 0 = 0 := by
    rw [List.getD_eq_getElem?_getD, List.getElem?_take]
    split
    · rw [List.getElem?_replicate]; split <;> rfl
    · rfl
  rw [h1, h2]
  simp [toSigned]

/-- Claim C1: for a buffer of at least 200 samples the estimator runs
the four trough stages with the windows of the source; failure of the
first three stages yields no estimate, failure of only the fourth
yields `(60*24*3)//t2`, and success of the fourth yields
`(60*24*4)//t3`. -/
theorem c1_stages (d : List Nat) (hlen : 200 ≤ d.length) :
    (trough d 7 48 = none → _get_heart_rate d = none) ∧
    (∀ t0, trough d 7 48 = some t0 →
      ((trough d (2 * t0 - 5) (2 * t0 + 5) = none → _get_heart_rate d = none) ∧
       (∀ t1, trough d (2 * t0 - 5) (2 * t0 + 5) = some t1 →
         ((trough d (3 * t1 / 2 - 5) (3 * t1 / 2 + 4) = none →
             _get_heart_rate d = none) ∧
          (∀ t2, trough d (3 * t1 / 2 - 5) (3 * t1 / 2 + 4) = some t2 →
            ((trough d (4 * t2 / 3 - 4) (4 * t2 / 3 + 4) = none →
                _get_heart_rate d = some (60 * 24 * 3 / t2)) ∧
             (∀ t3, trough d (4 * t2 / 3 - 4) (4 * t2 / 3 + 4) = some t3 →
                _get_heart_rate d = some (60 * 24 * 4 / t3)))))))) := by
  simp only [Nat.mul_comm 2, Nat.mul_comm 3, Nat.mul_comm 4]
  constructor
  · intro h; simp [_get_heart_rate, h]
  · intro t0 h0
    constructor
    · intro h; simp [_get_heart_rate, h0, h]
    · intro t1 h1
      constructor
      · intro h; simp [_get_heart_rate, h0, h1, h]
      · intro t2 h2
        constructor
        · intro h; simp [_get_heart_rate, h0, h1, h2, h]
        · intro t3 h3; simp [_get_heart_rate, h0, h1, h2, h3]

/-- Concrete instance of `c1_stages`: on 200 zero samples the first
stage finds no trough (the dissimilarity curve is constantly 0, never
strictly decreasing), so there is no estimate. -/
theorem c1_stages_witness :
    200 ≤ (List.replicate 200 0 : List Nat).length ∧
    _get_heart_rate (List.replicate 200 0) = none := by
  have hlen : 200 ≤ (List.replicate 200 0 : List Nat).length := by
    rw [List.length_replicate]
  have htr : trough (List.replicate 200 0) 7 48 = none := by
    unfold trough
    apply troughLoop_eq_none _ _ _ (by omega)
    intro j _ _ hdet
    rcases hdet with ⟨hgt, _⟩
    rw [compare'_replicate_zero, compare'_replicate_zero] at hgt
    exact lt_irrefl 0 hgt
  exact ⟨hlen, (c1_stages (List.replicate 200 0) hlen).1 htr⟩

/-- Claim C2: below 200 buffered samples `get_heart_rate` returns no
estimate and leaves the whole state (in particular the buffer)
unchanged; from 200 samples on, the buffer is empty after the call,
whatever the result. -/
theorem c2_threshold_and_clear (p : PPG) :
    (p.data.length < 200 → p.get_heart_rate = (p, none)) ∧
    (200 ≤ p.data.length → (p.get_heart_rate).1.data = []) := by
  constructor
  · intro h; unfold PPG.get_heart_rate; rw [if_pos h]
  · intro h; unfold PPG.get_heart_rate; rw [if_neg (by omega)]

/-- Concrete instance of `c2_threshold_and_clear`: with 200 buffered
samples the buffer is empty after the call. -/
theorem c2_threshold_and_clear_witness :
    200 ≤ pW.data.length ∧ (pW.get_heart_rate).1.data = [] := by
  have hlen : 200 ≤ pW.data.length := by
    show 200 ≤ (List.replicate 200 0 : List Nat).length
    rw [List.length_replicate]
  exact ⟨hlen, (c2_threshold_and_clear pW).2 hlen⟩

/-- Claim C10: `get_heart_rate` mutates only the sample buffer — the
high-pass and low-pass filter registers, the AGC state and the session
offset are identical before and after the call. -/
theorem c10_frame (p : PPG) :
    (p.get_heart_rate).1.hpf = p.hpf ∧ (p.get_heart_rate).1.lpf = p.lpf ∧
    (p.get_heart_rate).1.agc = p.agc ∧
    (p.get_heart_rate).1.offset = p.offset := by
  unfold PPG.get_heart_rate
  split <;> simp

/-- Stepping the AGC with a nonzero updated peak returns normally, with the
updated peak stored and `outVal` returned. -/
theorem PTAGC.step_ok (a : PTAGC) (spl : ℚ) (h : 2 * a.peakUpdate spl ≠ 0) :
    a.step spl = .ok ({ a with peak := a.peakUpdate spl }, a.outVal spl) := by
  unfold PTAGC.step PTAGC.outVal
  by_cases hc : spl > a.peakUpdate spl * a.threshold ∨
      spl < a.peakUpdate spl * (-a.threshold)
  · rw [if_pos hc, if_pos hc]
  · rw [if_neg hc, if_neg h, if_neg hc]

/-- Any normal return of `PTAGC.step` stores the updated peak (and only
that) and returns `outVal`. -/
theorem PTAGC.step_ok_inv (a : PTAGC) (spl : ℚ) (ag : PTAGC) (out : ℚ)
    (h : a.step spl = .ok (ag, out)) :
    ag = { a with peak := a.peakUpdate spl } ∧ out = a.outVal spl := by
  unfold PTAGC.step at h
  unfold PTAGC.outVal
  by_cases hc : spl > a.peakUpdate spl * a.threshold ∨
      spl < a.peakUpdate spl * (-a.threshold)
  · rw [if_pos hc] at h
    rw [if_pos hc]
    cases h
    exact ⟨rfl, rfl⟩
  · rw [if_neg hc] at h
    rw [if_neg hc]
    by_cases hz : 2 * a.peakUpdate spl = 0
    · rw [if_pos hz] at h
      cases h
    · rw [if_neg hz] at h
      cases h
      exact ⟨rfl, rfl⟩

/-- Claim C5 (amended): `PTAGC.step` first replaces the peak by
`peak * boost` when `|sample| > peak` and by `peak * decay` otherwise;
with respect to the updated peak, a sample outside
`[-peak*threshold, peak*threshold]` yields exactly 0 with the peak
update kept, and a sample inside yields `100 * sample / (2 * peak)` —
provided the updated peak is nonzero; when the updated peak is zero and
the sample passes the clipper, the step raises a division error instead
of returning a value. -/
theorem c5_agc_step (a : PTAGC) (spl : ℚ) :
    ((spl < -(a.peakUpdate spl * a.threshold) ∨
        a.peakUpdate spl * a.threshold < spl) →
      a.step spl = .ok ({ a with peak := a.peakUpdate spl }, 0)) ∧
    (¬ (spl < -(a.peakUpdate spl * a.threshold) ∨
        a.peakUpdate spl * a.threshold < spl) →
      2 * a.peakUpdate spl ≠ 0 →
      a.step spl = .ok ({ a with peak := a.peakUpdate spl },
        100 * spl / (2 * a.peakUpdate spl))) ∧
    (|spl| > a.peak → a.peakUpdate spl = a.peak * a.boost) ∧
    (¬ (|spl| > a.peak) → a.peakUpdate spl = a.peak * a.decay) := by
  have hiff : (spl > a.peakUpdate spl * a.threshold ∨
      spl < a.peakUpdate spl * (-a.threshold)) ↔
      (spl < -(a.peakUpdate spl * a.threshold) ∨
        a.peakUpdate spl * a.threshold < spl) := by
    rw [mul_neg]
    constructor
    · rintro (h | h)
      · exact Or.inr h
      · exact Or.inl h
    · rintro (h | h)
      · exact Or.inr h
      · exact Or.inl h
  refine ⟨?_, ?_, ?_, ?_⟩
  · intro hout
    unfold PTAGC.step
    rw [if_pos (hiff.mpr hout)]
  · intro hin hz
    unfold PTAGC.step
    rw [if_neg (fun hc => hin (hiff.mp hc)), if_neg hz]
  · intro hgt
    unfold PTAGC.peakUpdate
    rw [if_pos hgt]
  · intro hle
    unfold PTAGC.peakUpdate
    rw [if_neg hle]

/-- Counterexample to claim C5 as stated: for the AGC state with peak
0 (decay 0.971, boost 1/0.971, threshold 2) and sample 0, the sample
lies inside the clipping interval, so the claim asserts the value
`100 * 0 / (2 * 0)` is returned; the code instead raises
`ZeroDivisionError` (the booster divides by the zero updated peak). -/
theorem c5_claim_counterexample :
    PTAGC.step (PTAGC.init 0 0.971 2) 0 = .error .divByZero := by
  unfold PTAGC.step PTAGC.peakUpdate PTAGC.init
  norm_num

/-- Concrete instance of `c5_agc_step`: a fresh AGC state (peak 20)
with the large sample 100 boosts its peak to `20 / 0.971` and rejects
the sample, returning exactly 0. -/
theorem c5_agc_step_witness :
    ((100 : ℚ) < -((PTAGC.init 20 0.971 2).peakUpdate 100 *
        (PTAGC.init 20 0.971 2).threshold) ∨
      (PTAGC.init 20 0.971 2).peakUpdate 100 *
        (PTAGC.init 20 0.971 2).threshold < 100) ∧
    PTAGC.step (PTAGC.init 20 0.971 2) 100 =
      .ok ({ PTAGC.init 20 0.971 2 with
              peak := (PTAGC.init 20 0.971 2).peakUpdate 100 }, 0) := by
  have hpk : (PTAGC.init 20 0.971 2).peakUpdate 100 = 20000 / 971 := by
    unfold PTAGC.peakUpdate PTAGC.init
    rw [if_pos]
    · norm_num
    · rw [abs_of_nonneg] <;> norm_num
  have hout : (100 : ℚ) < -((PTAGC.init 20 0.971 2).peakUpdate 100 *
      (PTAGC.init 20 0.971 2).threshold) ∨
      (PTAGC.init 20 0.971 2).peakUpdate 100 *
        (PTAGC.init 20 0.971 2).threshold < 100 := by
    right
    rw [hpk]
    show (20000 / 971 : ℚ) * (PTAGC.init 20 0.971 2).threshold < 100
    unfold PTAGC.init
    norm_num
  exact ⟨hout, (c5_agc_step (PTAGC.init 20 0.971 2) 100).1 hout⟩

/-- Claim C8 (amended): for an AGC state with `0 < decay < 1`,
`1 < boost` and a strictly positive current peak, the peak strictly
increases on `|sample| > peak` and strictly decreases otherwise. -/
theorem c8_peak_monotone (a : PTAGC) (spl : ℚ) (hd0 : 0 < a.decay)
    (hd1 : a.decay < 1) (hb : 1 < a.boost) (hp : 0 < a.peak) :
    (|spl| > a.peak → a.peak < a.peakUpdate spl) ∧
    (¬ (|spl| > a.peak) → a.peakUpdate spl < a.peak) := by
  constructor
  · intro hgt
    unfold PTAGC.peakUpdate
    rw [if_pos hgt]
    exact (lt_mul_iff_one_lt_right hp).mpr hb
  · intro hle
    unfold PTAGC.peakUpdate
    rw [if_neg hle]
    exact mul_lt_of_lt_one_right hp hd1

/-- Counterexample to claim C8 as stated: the AGC state with peak 0,
decay 1/2 (strictly between 0 and 1) and boost 2 (> 1), on sample 1,
has `|1| > peak` but the peak after the step is `0 * 2 = 0`, not
strictly greater than before. -/
theorem c8_claim_counterexample :
    (0 : ℚ) < (PTAGC.mk 0 (1/2) 2 2).decay ∧
    (PTAGC.mk 0 (1/2) 2 2).decay < 1 ∧
    (1 : ℚ) < (PTAGC.mk 0 (1/2) 2 2).boost ∧
    |(1 : ℚ)| > (PTAGC.mk 0 (1/2) 2 2).peak ∧
    ¬ ((PTAGC.mk 0 (1/2) 2 2).peak < (PTAGC.mk 0 (1/2) 2 2).peakUpdate 1) := by
  refine ⟨?_, ?_, ?_, ?_, ?_⟩
  · show (0 : ℚ) < 1 / 2
    norm_num
  · show (1 / 2 : ℚ) < 1
    norm_num
  · show (1 : ℚ) < 2
    norm_num
  · show (0 : ℚ) < |(1 : ℚ)|
    rw [abs_one]
    norm_num
  · show ¬ ((0 : ℚ) < PTAGC.peakUpdate (PTAGC.mk 0 (1/2) 2 2) 1)
    unfold PTAGC.peakUpdate
    split <;> norm_num

/-- Concrete instance of `c8_peak_monotone`: a fresh AGC state
(peak 20, decay 0.971) with the quiet sample 1 strictly decays its
peak. -/
theorem c8_peak_monotone_witness :
    ((0 : ℚ) < (PTAGC.init 20 0.971 2).decay ∧
      (PTAGC.init 20 0.971 2).decay < 1 ∧
      (1 : ℚ) < (PTAGC.init 20 0.971 2).boost ∧
      (0 : ℚ) < (PTAGC.init 20 0.971 2).peak ∧
      ¬ (|(1 : ℚ)| > (PTAGC.init 20 0.971 2).peak)) ∧
    (PTAGC.init 20 0.971 2).peakUpdate 1 < (PTAGC.init 20 0.971 2).peak := by
  have h1 : (0 : ℚ) < (PTAGC.init 20 0.971 2).decay := by
    show (0 : ℚ) < 0.971
    norm_num
  have h2 : (PTAGC.init 20 0.971 2).decay < 1 := by
    show (0.971 : ℚ) < 1
    norm_num
  have h3 : (1 : ℚ) < (PTAGC.init 20 0.971 2).boost := by
    show (1 : ℚ) < 1 / 0.971
    norm_num
  have h4 : (0 : ℚ) < (PTAGC.init 20 0.971 2).peak := by
    show (0 : ℚ) < 20
    norm_num
  have h5 : ¬ (|(1 : ℚ)| > (PTAGC.init 20 0.971 2).peak) := by
    show ¬ ((20 : ℚ) < |(1 : ℚ)|)
    rw [abs_one]
    norm_num
  exact ⟨⟨h1, h2, h3, h4, h5⟩,
    (c8_peak_monotone (PTAGC.init 20 0.971 2) 1 h1 h2 h3 h4).2 h5⟩

/-- Signed-byte storage roundtrip: for in-range values the signed
reinterpretation of the stored byte recovers the value. -/
theorem toSigned_byteOfInt (v : Int) (h1 : -128 ≤ v) (h2 : v ≤ 127) :
    toSigned (byteOfInt v) = v := by
  unfold toSigned byteOfInt
  split <;> omega

/-- Claim C6 (amended): every call of `preprocess` that returns
normally applies, strictly in order, offset subtraction, the high-pass
filter, the AGC, the low-pass filter and integer truncation, appends
exactly one byte — the truncated integer's low byte, since MicroPython
`array("b").append` silently wraps out-of-range values — and returns
the truncated integer, so the buffer grows by exactly one element per
call; the returned integer equals the signed value of the appended
byte whenever it lies within the signed-8-bit range `-128..127`.  A
call raises (appending and returning nothing) exactly when the AGC
booster divides by a zero updated peak. -/
theorem c6_preprocess_order (p : PPG) (x : ℚ) (st : PPG) (q : Int)
    (h : p.preprocess x = .ok (st, q)) :
    st.data = p.data ++ [byteOfInt q] ∧
    st.data.length = p.data.length + 1 ∧
    (-128 ≤ q → q ≤ 127 → toSigned (byteOfInt q) = q) ∧
    q = p.quantVal x ∧
    st.hpf = (p.hpf.step (x - p.offset)).1 ∧
    st.agc = { p.agc with
                peak := p.agc.peakUpdate ((p.hpf.step (x - p.offset)).2) } ∧
    st.lpf = (p.lpf.step (p.agc.outVal ((p.hpf.step (x - p.offset)).2))).1 ∧
    st.offset = p.offset := by
  unfold PPG.preprocess at h
  dsimp only at h
  cases hstep : p.agc.step (p.hpf.step (x - p.offset)).2 with
  | error e => rw [hstep] at h; cases h
  | ok ag =>
    rw [hstep] at h
    dsimp only at h
    obtain ⟨hag, hout⟩ :=
      PTAGC.step_ok_inv p.agc ((p.hpf.step (x - p.offset)).2) ag.1 ag.2
        (by rw [hstep])
    cases h
    refine ⟨rfl, by simp, fun h1 h2 => toSigned_byteOfInt _ h1 h2,
      ?_, rfl, ?_, ?_, rfl⟩
    · show intTrunc (p.lpf.step ag.2).2 = p.quantVal x
      unfold PPG.quantVal
      rw [hout]
    · exact hag
    · show (p.lpf.step ag.2).1 = _
      rw [hout]

/-- Counterexample to claim C6 as stated: in a session whose AGC peak
has reached 0, `preprocess(0)` raises `ZeroDivisionError` in the AGC
booster — nothing is appended to the buffer and nothing is returned,
so not every call appends and returns. -/
theorem c6_claim_counterexample :
    PPG.preprocess pC6 0 = .error .divByZero := by
  have hy1 : (pC6.hpf.step (0 - pC6.offset)).2 = 0 := by
    show ((PPG.init 0).hpf.step ((0 : ℚ) - (PPG.init 0).offset)).2 = 0
    unfold PPG.init Biquad.step
    norm_num
  have hstep : pC6.agc.step ((pC6.hpf.step (0 - pC6.offset)).2) =
      .error .divByZero := by
    rw [hy1]
    show PTAGC.step (PTAGC.init 0 0.971 2) 0 = .error .divByZero
    unfold PTAGC.step PTAGC.peakUpdate PTAGC.init
    norm_num
  unfold PPG.preprocess
  dsimp only
  rw [hstep]

/-- Concrete instance of `c6_preprocess_order`: a fresh session
preprocessing the sample 0 appends the byte 0 and returns 0. -/
theorem c6_preprocess_order_witness :
    PPG.preprocess (PPG.init 0) 0 = .ok (stW, 0) ∧
    stW.data = (PPG.init 0).data ++ [byteOfInt 0] := by
  have hdc : (0 : ℚ) - (PPG.init 0).offset = 0 := by
    show (0 : ℚ) - 0 = 0
    norm_num
  have hhp : (PPG.init 0).hpf.step 0 = ((PPG.init 0).hpf, 0) := by
    unfold PPG.init Biquad.step
    norm_num
  have hpk0 : (PPG.init 0).agc.peakUpdate 0 = 971 / 50 := by
    show PTAGC.peakUpdate (PTAGC.init 20 0.971 2) 0 = 971 / 50
    unfold PTAGC.peakUpdate PTAGC.init
    rw [abs_zero, if_neg (by norm_num)]
    norm_num
  have hne : 2 * (PPG.init 0).agc.peakUpdate 0 ≠ 0 := by
    rw [hpk0]
    norm_num
  have hov : (PPG.init 0).agc.outVal 0 = 0 := by
    unfold PTAGC.outVal
    dsimp only
    split
    · rfl
    · norm_num
  have hlp : (PPG.init 0).lpf.step 0 = ((PPG.init 0).lpf, 0) := by
    unfold PPG.init Biquad.step
    norm_num
  have hq0 : intTrunc 0 = 0 := by
    unfold intTrunc
    rw [if_pos le_rfl]
    decide
  have hpre : PPG.preprocess (PPG.init 0) 0 = .ok (stW, 0) := by
    unfold PPG.preprocess
    rw [hdc, hhp]
    dsimp only
    rw [PTAGC.step_ok (PPG.init 0).agc 0 hne]
    dsimp only
    rw [hov, hlp]
    dsimp only
    rw [hq0]
    rfl
  exact ⟨hpre, (c6_preprocess_order (PPG.init 0) 0 stW 0 hpre).1⟩

/-- Claim C7 (amended): `get_heart_rate` returns normally on every
state (every dissimilarity scan, even one past the end of the buffer,
is a total computation); the append into the sample buffer succeeds
for all inputs, since MicroPython `array("b").append` silently
truncates out-of-range values instead of raising; and `preprocess`
returns normally on every session state and input for which the
updated AGC peak is nonzero — when a sample passes the clipper with a
zero updated peak, the AGC gain division raises `ZeroDivisionError`. -/
theorem c7_no_exception (p : PPG) (x : ℚ)
    (hpk : 2 * p.agc.peakUpdate ((p.hpf.step (x - p.offset)).2) ≠ 0) :
    ∃ st : PPG, p.preprocess x = .ok (st, p.quantVal x) := by
  refine ⟨{ p with
      hpf := (p.hpf.step (x - p.offset)).1
      agc := { p.agc with
                peak := p.agc.peakUpdate ((p.hpf.step (x - p.offset)).2) }
      lpf := (p.lpf.step (p.agc.outVal ((p.hpf.step (x - p.offset)).2))).1
      data := p.data ++ [byteOfInt (p.quantVal x)] }, ?_⟩
  unfold PPG.preprocess
  dsimp only
  rw [PTAGC.step_ok p.agc ((p.hpf.step (x - p.offset)).2) hpk]
  rfl

/-- Counterexample to claim C7 as stated: in a session (offset 5)
whose AGC peak has decayed to 0, the sample 5 reaches the AGC as 0,
passes the clipper, and the gain division `100 * 0 / (2 * 0)` raises
`ZeroDivisionError` — so `preprocess` does not return normally on
every session state and input. -/
theorem c7_claim_counterexample :
    PPG.preprocess pC7 5 = .error .divByZero := by
  have hy1 : (pC7.hpf.step (5 - pC7.offset)).2 = 0 := by
    show ((PPG.init 5).hpf.step ((5 : ℚ) - (PPG.init 5).offset)).2 = 0
    unfold PPG.init Biquad.step
    norm_num
  have hstep : pC7.agc.step ((pC7.hpf.step (5 - pC7.offset)).2) =
      .error .divByZero := by
    rw [hy1]
    show PTAGC.step (PTAGC.init 0 0.971 2) 0 = .error .divByZero
    unfold PTAGC.step PTAGC.peakUpdate PTAGC.init
    norm_num
  unfold PPG.preprocess
  dsimp only
  rw [hstep]

/-- The high-pass stage of a fresh session maps the first zero input to
zero output. -/
theorem PPGinit_hpf_snd :
    (((PPG.init 0).hpf.step ((0 : ℚ) - (PPG.init 0).offset))).2 = 0 := by
  show ((PPG.init 0).hpf.step ((0 : ℚ) - (PPG.init 0).offset)).2 = 0
  unfold PPG.init Biquad.step
  norm_num

/-- A fresh session decays its peak to `971/50` on a zero sample. -/
theorem PPGinit_peakUpdate_zero :
    (PPG.init 0).agc.peakUpdate 0 = 971 / 50 := by
  show PTAGC.peakUpdate (PTAGC.init 20 0.971 2) 0 = 971 / 50
  unfold PTAGC.peakUpdate PTAGC.init
  rw [abs_zero, if_neg (by norm_num)]
  norm_num

/-- The AGC of a fresh session maps a zero sample to zero. -/
theorem PPGinit_outVal_zero : (PPG.init 0).agc.outVal 0 = 0 := by
  unfold PTAGC.outVal
  dsimp only
  split
  · rfl
  · norm_num

/-- The low-pass stage of a fresh session maps zero to zero. -/
theorem PPGinit_lpf_snd : ((PPG.init 0).lpf.step 0).2 = 0 := by
  unfold PPG.init Biquad.step
  norm_num

/-- Integer truncation of zero. -/
theorem intTrunc_zero : intTrunc 0 = 0 := by
  unfold intTrunc
  rw [if_pos le_rfl]
  decide

/-- A fresh session quantizes its first zero sample to the integer 0. -/
theorem PPGinit_quantVal_zero : (PPG.init 0).quantVal 0 = 0 := by
  unfold PPG.quantVal
  rw [PPGinit_hpf_snd, PPGinit_outVal_zero, PPGinit_lpf_snd, intTrunc_zero]

/-- Concrete instance of `c7_no_exception`: a fresh session
preprocessing the sample 0 has a nonzero updated peak and returns
normally. -/
theorem c7_no_exception_witness :
    (2 * (PPG.init 0).agc.peakUpdate
        (((PPG.init 0).hpf.step ((0 : ℚ) - (PPG.init 0).offset)).2) ≠ 0) ∧
    ∃ st : PPG, (PPG.init 0).preprocess 0 = .ok (st, (PPG.init 0).quantVal 0) := by
  have hne : 2 * (PPG.init 0).agc.peakUpdate
      (((PPG.init 0).hpf.step ((0 : ℚ) - (PPG.init 0).offset)).2) ≠ 0 := by
    rw [PPGinit_hpf_snd, PPGinit_peakUpdate_zero]
    norm_num
  exact ⟨hne, c7_no_exception (PPG.init 0) 0 hne⟩
